import Mathlib

/-!
Shallow embedding of the gemini-study-buddy content-to-card pipeline
(`extension/popup.js` plus the two earlier popup variants) and proofs of
the specification claims about it.  Strings are modelled as lists of
characters; JavaScript values reaching the popup (parsed JSON payloads)
are modelled by the inductive type `JVal`.
-/

namespace StudyBuddy

/-- Strings are modelled as lists of characters. -/
abbrev Str := List Char

/-- Turn a Lean string literal into the `List Char` model. -/
def str (s : String) : Str := s.toList

/-- The ECMAScript whitespace set used by `String.prototype.trim` and the
`\s` regex class (WhiteSpace plus LineTerminator code points). -/
def jsWhitespace (c : Char) : Bool :=
  c == ' ' || c == '\t' || c == '\n' || c == '\r' || c == '\u000B' ||
  c == '\u000C' || c == '\u00A0' || c == '\u1680' ||
  ('\u2000' ≤ c && c ≤ '\u200A') ||
  c == '\u2028' || c == '\u2029' || c == '\u202F' || c == '\u205F' ||
  c == '\u3000' || c == '\uFEFF'

/-- JavaScript `String.prototype.trim`: drop whitespace from both ends. -/
def jsTrim (s : Str) : Str :=
  ((s.dropWhile jsWhitespace).reverse.dropWhile jsWhitespace).reverse

/-- Decimal digits of a natural number (JavaScript `String(n)` for a
non-negative integer). -/
def natToStr (n : Nat) : Str := Nat.toDigits 10 n

/-- JavaScript `String(n)` for an integer-valued number. -/
def intToStr (n : Int) : Str :=
  if n < 0 then '-' :: natToStr n.natAbs else natToStr n.natAbs

/-- Parsed JSON values as they reach the popup code.  Object fields are
listed in the property-enumeration order that `Object.entries` yields. -/
inductive JVal where
  | jnull : JVal
  | jbool : Bool → JVal
  | jnum : Int → JVal
  | jstr : Str → JVal
  | jarr : List JVal → JVal
  | jobj : List (Str × JVal) → JVal

/-- JavaScript truthiness of a value (`undefined` is handled at call
sites through `Option`). -/
def jsTruthy : JVal → Bool
  | .jnull => false
  | .jbool b => b
  | .jnum n => n ≠ 0
  | .jstr s => s ≠ []
  | .jarr _ => true
  | .jobj _ => true

/-- Whether `typeof v === "object"` holds (`null` and arrays included). -/
def isObjectTypeof : JVal → Bool
  | .jnull => true
  | .jarr _ => true
  | .jobj _ => true
  | _ => false

/-- Optional chaining `v?.name`: field lookup on objects, `undefined`
(`none`) on everything else. -/
def jField (v : JVal) (name : Str) : Option JVal :=
  match v with
  | .jobj fields => fields.lookup name
  | _ => none

/-- Optional chaining through an `Option`: `x?.name` when `x` may already
be `undefined`. -/
def jFieldOpt (v : Option JVal) (name : Str) : Option JVal :=
  match v with
  | none => none
  | some w => jField w name

/-- Indexed access `v?.[i]`: element access on arrays, property access
with the decimal string key on plain objects, a single-character string
on strings, `undefined` on booleans and numbers (`null`/`undefined`
receivers short-circuit at the call site through `Option`). -/
def jIndex (v : JVal) (i : Nat) : Option JVal :=
  match v with
  | .jarr xs => xs.get? i
  | .jobj fields => fields.lookup (natToStr i)
  | .jstr s => (s.get? i).map (fun c => JVal.jstr [c])
  | _ => none

mutual

/-- JavaScript `String(v)` conversion for the values of `JVal`. -/
def jsToString : JVal → Str
  | .jnull => str "null"
  | .jbool true => str "true"
  | .jbool false => str "false"
  | .jnum n => intToStr n
  | .jstr s => s
  | .jarr xs => jsArrayToString xs
  | .jobj _ => str "[object Object]"

/-- `Array.prototype.toString`: elements joined by commas, with `null`
elements contributing the empty string. -/
def jsArrayToString : List JVal → Str
  | [] => []
  | x :: rest =>
      let head : Str :=
        match x with
        | .jnull => []
        | .jbool b => jsToString (.jbool b)
        | .jnum n => jsToString (.jnum n)
        | .jstr s => jsToString (.jstr s)
        | .jarr xs => jsToString (.jarr xs)
        | .jobj fs => jsToString (.jobj fs)
      match rest with
      | [] => head
      | y :: ys => head ++ ',' :: jsArrayToString (y :: ys)

end

/-- `toCleanString` from popup.js: `""` for `null`/`undefined`, otherwise
`String(value).trim()`. -/
def toCleanString (value : Option JVal) : Str :=
  match value with
  | none => []
  | some .jnull => []
  | some v => jsTrim (jsToString v)

/-- A flashcard as built by `normalizeFlashcards`: an external identifier
plus the cleaned front (question) and back (answer) strings. -/
structure Card where
  id : Str
  front : Str
  back : Str
deriving DecidableEq

/-- `Object.entries` of a value already known to be a truthy object:
objects list their fields, arrays enumerate index keys. -/
def jsEntries : JVal → List (Str × JVal)
  | .jobj fields => fields
  | .jarr xs => (List.range xs.length).zip xs |>.map (fun p => (natToStr p.1, p.2))
  | _ => []

/-- One entry of the cards object turned into a `Card`
(the body of the `.map` in `normalizeFlashcards`). -/
def entryToCard (p : Str × JVal) : Card :=
  { id := p.1
    front := toCleanString (jFieldOpt (some p.2) (str "front"))
    back := toCleanString (jFieldOpt (some p.2) (str "back")) }

/-- `normalizeFlashcards` from popup.js: return `[]` unless the input is
a truthy value of object type, else map every entry to a card and keep
the ones with a truthy (non-empty) front. -/
def normalizeFlashcards (cardsObject : Option JVal) : List Card :=
  match cardsObject with
  | none => []
  | some v =>
      if jsTruthy v = false ∨ isObjectTypeof v = false then []
      else ((jsEntries v).map entryToCard).filter (fun c => c.front ≠ [])

/-- Auxiliary bound used for termination of the regex-replacement
scanners: dropping a prefix never lengthens a list. -/
theorem dropWhile_length_le {α : Type} (p : α → Bool) (l : List α) :
    (l.dropWhile p).length ≤ l.length := by
  induction l with
  | nil => simp
  | cons a l ih =>
      simp only [List.dropWhile]
      split
      · exact Nat.le_succ_of_le ih
      · simp

/-- Suffix of a character list after its last newline (the whole list if
it has no newline). -/
def afterLastNewline (l : Str) : Str :=
  (l.reverse.takeWhile (fun c => c ≠ '\n')).reverse

/-- Global regex replacement of one-or-more whitespace characters
followed by a newline with a single newline (the injected capture
script first `replace`).  Each maximal whitespace run whose last
newline sits at position one or later is collapsed up to that newline. -/
def replaceWsNewline : Str → Str
  | [] => []
  | c :: rest =>
      if jsWhitespace c then
        let run := c :: rest.takeWhile jsWhitespace
        let tail := rest.dropWhile jsWhitespace
        if run.contains '\n' then
          '\n' :: (afterLastNewline run ++ replaceWsNewline tail)
        else
          run ++ replaceWsNewline tail
      else c :: replaceWsNewline rest
termination_by l => l.length
decreasing_by
  all_goals
    simp only [List.length_cons]
    first
      | exact Nat.lt_succ_of_le (dropWhile_length_le _ _)
      | exact Nat.lt_succ_self _

/-- Global regex replacement of three-or-more consecutive newlines with
exactly two (the second `replace` of the injected capture script). -/
def collapseNewlines : Str → Str
  | [] => []
  | c :: rest =>
      if c = '\n' then
        let run := c :: rest.takeWhile (fun d => d = '\n')
        let tail := rest.dropWhile (fun d => d = '\n')
        (if 3 ≤ run.length then str "\n\n" else run) ++ collapseNewlines tail
      else c :: collapseNewlines rest
termination_by l => l.length
decreasing_by
  all_goals
    simp only [List.length_cons]
    first
      | exact Nat.lt_succ_of_le (dropWhile_length_le _ _)
      | exact Nat.lt_succ_self _

/-- Body text as produced by the injected capture script:
`bodyText.trim().replace(wsNewline, newline).replace(tripleNewline, doubleNewline)`. -/
def normalizeBody (bodyText : Str) : Str :=
  collapseNewlines (replaceWsNewline (jsTrim bodyText))

/-- The maximum number of context characters sent to the backend
(`MAX_CONTEXT_LENGTH`). -/
def maxContextLength : Nat := 6000

/-- The visible truncation notice appended after the kept prefix. -/
def truncationNotice : Str :=
  str "\n\n[Context truncated after " ++ natToStr maxContextLength ++ str " characters]"

/-- The context object returned by `collectPageContext`. -/
structure PageContext where
  text : Str
  truncated : Bool
  usedSelection : Bool
deriving DecidableEq

/-- The text chosen before truncation: the (already trimmed) selection
when non-empty, else the normalized body (`selection || body || ""`). -/
def chosenText (selectionRaw bodyRaw : Str) : Str :=
  if jsTrim selectionRaw ≠ [] then jsTrim selectionRaw else normalizeBody bodyRaw

/-- The pure core of `collectPageContext`: the injected script trims the
selection and trims/normalizes the body, then the popup picks the
selection when non-empty, marks `usedSelection`, and truncates texts
longer than `maxContextLength`, appending the truncation notice. -/
def collectPageContext (selectionRaw bodyRaw : Str) : PageContext :=
  let text := chosenText selectionRaw bodyRaw
  if maxContextLength < text.length then
    { text := text.take maxContextLength ++ truncationNotice
      truncated := true
      usedSelection := jsTrim selectionRaw ≠ [] }
  else
    { text := text
      truncated := false
      usedSelection := jsTrim selectionRaw ≠ [] }

/-- What the results pane shows after `showResult`: either the
explanatory empty-state message or a deck of cards. -/
inductive RenderResult where
  | emptyMessage : Str → RenderResult
  | deck : List Card → RenderResult
deriving DecidableEq

/-- The empty-state message rendered when no flashcards were parsed. -/
def noFlashcardsMessage : Str :=
  str "Gemini did not return any flashcards. Try again with a smaller selection."

/-- The pure core of `showResult` from popup.js: normalize
`payload?.cards` and either render the empty-state message or the
deck. -/
def showResult (payload : Option JVal) : RenderResult :=
  let cards := normalizeFlashcards (jFieldOpt payload (str "cards"))
  if cards = [] then .emptyMessage noFlashcardsMessage else .deck cards

/-- Fallback error text of the structured local-API contract. -/
def genericLocalApiError (status : Nat) : Str :=
  str "Local API error (" ++ natToStr status ++ str ")"

/-- Error message raised by popup.js `callGemini` on a non-ok response:
`payload?.detail || "Local API error (status)"`. -/
def localApiErrorMessage (status : Nat) (payload : JVal) : Str :=
  match jField payload (str "detail") with
  | some d => if jsTruthy d then jsToString d else genericLocalApiError status
  | none => genericLocalApiError status

/-- Fallback error text of the prompt-based Gemini contract. -/
def genericGeminiApiError (status : Nat) : Str :=
  str "Gemini API error (" ++ natToStr status ++ str ")"

/-- Error message raised by the prompt-based `callGemini` variants on a
non-ok response: `payload?.error?.message || "Gemini API error (status)"`. -/
def geminiApiErrorMessage (status : Nat) (payload : JVal) : Str :=
  match jFieldOpt (jField payload (str "error")) (str "message") with
  | some m => if jsTruthy m then jsToString m else genericGeminiApiError status
  | none => genericGeminiApiError status

/-- The error raised by the prompt-based variants when the joined output
text is empty. -/
def emptyGeminiResponseMessage : Str :=
  str "Gemini returned an empty response. Try again or adjust the highlighted content."

/-- How `payload?.candidates?.[0]?.content?.parts` presents itself to
the following `parts?.map(...)` call: `absent` when the chain produced
`undefined` or `null` (the optional chaining short-circuits), `arr`
when it is an array, and `nonArray` when a non-null non-array value is
present — calling `.map` on such a value throws a TypeError. -/
inductive PartsView where
  | absent : PartsView
  | arr : List JVal → PartsView
  | nonArray : PartsView

/-- The value of `payload?.candidates?.[0]?.content?.parts` as seen by
`parts?.map(...)`. -/
def geminiParts (payload : JVal) : PartsView :=
  match jFieldOpt (jFieldOpt ((jField payload (str "candidates")).bind
      (fun c => jIndex c 0)) (str "content")) (str "parts") with
  | none => .absent
  | some .jnull => .absent
  | some (.jarr xs) => .arr xs
  | some (.jbool _) => .nonArray
  | some (.jnum _) => .nonArray
  | some (.jstr _) => .nonArray
  | some (.jobj _) => .nonArray

/-- One element of the parts array as joined by
`.map(part => part?.text ?? "").join("")`. -/
def geminiPartText (p : JVal) : Str :=
  match jField p (str "text") with
  | none => []
  | some .jnull => []
  | some v => jsToString v

/-- The joined, trimmed output text of a prompt-based response, when
`parts` is an actual array. -/
def geminiOutputText (payload : JVal) : Option Str :=
  match geminiParts payload with
  | .arr parts => some (jsTrim (parts.foldr (fun p acc => geminiPartText p ++ acc) []))
  | _ => none

/-- Observable outcome of the prompt-based `callGemini` response
handling: the returned text, a thrown `Error` with its message, or the
TypeError thrown by calling `.map` on a present non-array `parts` value
(its message text is engine-supplied, so it is not modelled). -/
inductive PromptCallOutcome where
  | ok : Str → PromptCallOutcome
  | thrown : Str → PromptCallOutcome
  | typeError : PromptCallOutcome
deriving DecidableEq

/-- The response handling of the prompt-based `callGemini` (part_000 /
part_001): a non-ok status throws the backend message; an absent output
chain or an empty joined text throws the empty-response error; a
present non-array `parts` value makes `parts.map` throw a TypeError;
otherwise the text is returned. -/
def callGeminiPromptContract (ok : Bool) (status : Nat) (payload : JVal) :
    PromptCallOutcome :=
  if ok = false then .thrown (geminiApiErrorMessage status payload)
  else
    match geminiParts payload with
    | .absent => .thrown emptyGeminiResponseMessage
    | .nonArray => .typeError
    | .arr parts =>
        let text := jsTrim (parts.foldr (fun p acc => geminiPartText p ++ acc) [])
        if text = [] then .thrown emptyGeminiResponseMessage else .ok text

/-- `describeRating` from popup.js. -/
def describeRating (score : Int) : Str :=
  if 8 ≤ score then str "High depth content - great for learning."
  else if 5 ≤ score then str "Moderate depth - useful but could go deeper."
  else if 1 ≤ score then str "Light coverage - mostly surface-level info."
  else str "No rating available."

/-- Rating extraction from `renderMetadata`:
`typeof payload?.content_rating === "number" ? payload.content_rating : null`. -/
def extractContentRating (payload : Option JVal) : Option Int :=
  match jFieldOpt payload (str "content_rating") with
  | some (.jnum n) => some n
  | _ => none

/-- The marker phrase separating the outline from the job note. -/
def jobMarker : Str := str "note about job function:"

/-- JavaScript `toLowerCase`, modelled per character. -/
def toLowerStr (s : Str) : Str := s.map Char.toLower

/-- The needle occurs in the haystack at position `i`. -/
def occursAt (needle hay : Str) (i : Nat) : Prop :=
  (hay.drop i).take needle.length = needle

instance (needle hay : Str) (i : Nat) : Decidable (occursAt needle hay i) := by
  unfold occursAt
  infer_instance

/-- Scan from position `i` downward for the last occurrence of the
needle (JavaScript `lastIndexOf`). -/
def lastIndexFrom (needle hay : Str) : Nat → Option Nat
  | 0 => if (hay.drop 0).take needle.length = needle then some 0 else none
  | (i + 1) =>
      if (hay.drop (i + 1)).take needle.length = needle then some (i + 1)
      else lastIndexFrom needle hay i

/-- JavaScript `hay.lastIndexOf(needle)` (as an `Option` instead of -1). -/
def lastIndexOf (needle hay : Str) : Option Nat :=
  lastIndexFrom needle hay hay.length

/-- The result of `parseInformationHierarchy`. -/
structure HierarchySplit where
  hierarchy : Str
  jobNote : Str
deriving DecidableEq

/-- `parseInformationHierarchy` from popup.js: split the raw outline at
the last case-insensitive occurrence of the marker phrase. -/
def parseInformationHierarchy (rawValue : Str) : HierarchySplit :=
  if rawValue = [] then { hierarchy := [], jobNote := [] }
  else
    match lastIndexOf jobMarker (toLowerStr rawValue) with
    | none => { hierarchy := jsTrim rawValue, jobNote := [] }
    | some idx =>
        { hierarchy := jsTrim (rawValue.take idx)
          jobNote := jsTrim (rawValue.drop idx) }

/-- The card-deck view state kept by `renderFlashcards`: the current
index, whether the shown card is flipped, and the active flag of every
indicator dot. -/
structure DeckState where
  currentIndex : Nat
  isFlipped : Bool
  dots : List Bool
deriving DecidableEq

/-- `updateCard(index)` from popup.js: set the index, clear the flip
class, and mark exactly the dot at `index` active. -/
def updateCard (n : Nat) (index : Nat) : DeckState :=
  { currentIndex := index
    isFlipped := false
    dots := (List.range n).map (fun d => d == index) }

/-- The navigation events wired up by `renderFlashcards`: previous/next
buttons, one dot per card, and the card flip click. -/
inductive DeckEvent where
  | next : DeckEvent
  | prev : DeckEvent
  | jumpTo : Nat → DeckEvent
  | flip : DeckEvent

/-- One event handler step over a deck of `n` cards, following the
guards in popup.js (`currentIndex < cards.length - 1`,
`currentIndex > 0`; dots exist only for indices below `n`). -/
def deckStep (n : Nat) (s : DeckState) : DeckEvent → DeckState
  | .next => if s.currentIndex < n - 1 then updateCard n (s.currentIndex + 1) else s
  | .prev => if 0 < s.currentIndex then updateCard n (s.currentIndex - 1) else s
  | .jumpTo j => if j < n then updateCard n j else s
  | .flip => { s with isFlipped := !s.isFlipped }

/-- `renderFlashcards` ends with `updateCard(0)`. -/
def initialDeck (n : Nat) : DeckState := updateCard n 0

/-- The deck state after a sequence of navigation events. -/
def runDeck (n : Nat) (events : List DeckEvent) : DeckState :=
  events.foldl (deckStep n) (initialDeck n)

/-- Advisory note embedded when the context came from a selection. -/
def selectionNote (usedSelection : Bool) : Str :=
  if usedSelection then
    str "\nThe learner highlighted specific text. Prioritize the highlighted material while still using broader context when relevant."
  else []

/-- Advisory note embedded when the context was truncated. -/
def truncationNote (truncated : Bool) : Str :=
  if truncated then
    str "\nThe context was truncated for length. Respond using only the provided portion."
  else []

/-- The task instruction for the summary action. -/
def summaryTask : Str :=
  str "Create a study summary that captures the essential ideas, definitions, and cause/effect relationships.\n- Start with a short paragraph that frames the topic.\n- Follow with 3-6 bullet points of key takeaways using plain language.\n- Close with one actionable tip or mnemonic that helps remember the material."

/-- The task instruction for the flashcards action. -/
def flashcardsTask : Str :=
  str "Produce 6-10 concise flashcards formatted as Markdown.\nFor each card write a bold question line followed by an indented answer line that learners can quickly review.\nVary between concept, definition, and application questions."

/-- The task instruction for the quiz action. -/
def quizTask : Str :=
  str "Generate a short self-check quiz in Markdown with 5 multiple-choice questions.\nFor each question provide four answer options labeled A-D and mark the correct answer on a new line starting with \"Answer:\".\nInclude a one-sentence explanation after each answer to reinforce learning."

/-- The fallback task instruction of the `default` branch of `buildPrompt`. -/
def defaultSummarizeTask : Str :=
  str "Summarize the material in a learner-friendly way."

/-- The `switch (action)` of `buildPrompt` (part_000 / part_001):
unrecognized actions fall through to the default summarize task. -/
def taskForAction (action : Str) : Str :=
  if action = str "summary" then summaryTask
  else if action = str "flashcards" then flashcardsTask
  else if action = str "quiz" then quizTask
  else defaultSummarizeTask

/-- `buildPrompt` from part_000 / part_001: the composed natural-language
generation request.  It is total: every action produces a prompt. -/
def buildPrompt (action : Str) (ctx : PageContext) : Str :=
  str "You are Gemini Flashcards Tutor, an expert AI study assistant powered by Google Gemini Flash 2.0.\nUse the context provided to craft the requested study aid." ++
  selectionNote ctx.usedSelection ++ truncationNote ctx.truncated ++
  str "\n\nContext:\n\"\"\"\n" ++ ctx.text ++ str "\n\"\"\"\n\nTask:\n" ++
  taskForAction action

/-! ## Helper lemmas -/

theorem dropWhile_eq_self_of (p : Char → Bool) (l : Str)
    (h : ∀ c ∈ l, p c = false) : l.dropWhile p = l := by
  cases l with
  | nil => rfl
  | cons a l =>
      rw [List.dropWhile_cons, h a (List.mem_cons_self a l)]
      simp

theorem jsTrim_eq_self (l : Str) (h : ∀ c ∈ l, jsWhitespace c = false) :
    jsTrim l = l := by
  unfold jsTrim
  rw [dropWhile_eq_self_of _ _ h, dropWhile_eq_self_of, List.reverse_reverse]
  intro c hc
  exact h c (List.mem_reverse.mp hc)

theorem jsTrim_replicate_a (n : Nat) :
    jsTrim (List.replicate n 'a') = List.replicate n 'a' :=
  jsTrim_eq_self _ (fun c hc => by rw [List.eq_of_mem_replicate hc]; decide)

theorem chosenText_replicate_a (n : Nat) (h : n ≠ 0) :
    chosenText (List.replicate n 'a') [] = List.replicate n 'a' := by
  unfold chosenText
  rw [if_pos]
  · exact jsTrim_replicate_a n
  · rw [jsTrim_replicate_a n]
    apply List.ne_nil_of_length_pos
    rw [List.length_replicate]
    exact Nat.pos_of_ne_zero h

theorem collectPageContext_of_long (sel body : Str)
    (h : maxContextLength < (chosenText sel body).length) :
    collectPageContext sel body =
      { text := (chosenText sel body).take maxContextLength ++ truncationNotice
        truncated := true
        usedSelection := decide (jsTrim sel ≠ []) } := by
  simp only [collectPageContext]
  rw [if_pos h]

theorem collectPageContext_of_short (sel body : Str)
    (h : ¬ maxContextLength < (chosenText sel body).length) :
    collectPageContext sel body =
      { text := chosenText sel body
        truncated := false
        usedSelection := decide (jsTrim sel ≠ []) } := by
  simp only [collectPageContext]
  rw [if_neg h]

/-! ## Claim C1 -/

/-- C1 counterexample: on the specification scenario input the single
retained card keeps its empty answer; the code never substitutes the
placeholder text "No answer provided.". -/
theorem normalizeFlashcards_placeholder_counterexample :
    normalizeFlashcards (some (.jobj
      [(str "1", .jobj [(str "front", .jstr (str "")), (str "back", .jstr (str "ignored"))]),
       (str "2", .jobj [(str "front", .jstr (str "Define Z")), (str "back", .jstr (str ""))])])) =
      [{ id := str "2", front := str "Define Z", back := [] }] ∧
    ([] : Str) ≠ str "No answer provided." := by
  constructor
  · decide
  · decide

/-- C1 (amended): every entry of the structured cards mapping whose
coerced front is empty is absent from the output; the retained cards are
exactly the entries with non-empty coerced front, in the mapping
iteration order, keeping their external identifier and their coerced
back unchanged (an empty back stays empty — no placeholder answer is
substituted). -/
theorem normalizeFlashcards_amended (fields : List (Str × JVal)) :
    (∀ c ∈ normalizeFlashcards (some (.jobj fields)), c.front ≠ []) ∧
    normalizeFlashcards (some (.jobj fields)) =
      (fields.filter (fun p => (entryToCard p).front ≠ [])).map entryToCard ∧
    (∀ c ∈ normalizeFlashcards (some (.jobj fields)),
        ∃ p ∈ fields, c = entryToCard p) := by
  have hout : normalizeFlashcards (some (.jobj fields)) =
      (fields.map entryToCard).filter (fun c => c.front ≠ []) := by
    simp [normalizeFlashcards, jsTruthy, isObjectTypeof, jsEntries]
  refine ⟨?_, ?_, ?_⟩
  · intro c hc
    rw [hout] at hc
    exact of_decide_eq_true (List.mem_filter.mp hc).2
  · rw [hout]
    exact List.filter_map ..
  · intro c hc
    rw [hout] at hc
    obtain ⟨p, hp, rfl⟩ := List.mem_map.mp (List.mem_of_mem_filter hc)
    exact ⟨p, hp, rfl⟩

/-- C1 witness: the amended theorem evaluated on a concrete mapping with
one whitespace-only front and one empty back. -/
theorem normalizeFlashcards_amended_witness :
    normalizeFlashcards (some (.jobj
      [(str "1", .jobj [(str "front", .jstr (str " ")), (str "back", .jstr (str "B1"))]),
       (str "3", .jobj [(str "front", .jstr (str "Q3")), (str "back", .jstr (str ""))])])) =
      [{ id := str "3", front := str "Q3", back := [] }] := by
  rw [(normalizeFlashcards_amended _).2.1]
  decide

/-! ## Claim C2 -/

/-- C2: whenever the chosen context text is longer than
`maxContextLength`, the produced `PageContext` is marked truncated, its
text is exactly the first `maxContextLength` characters followed by the
fixed truncation notice, and its total length is `maxContextLength` plus
the notice length. -/
theorem collectPageContext_truncation (selectionRaw bodyRaw : Str)
    (h : maxContextLength < (chosenText selectionRaw bodyRaw).length) :
    (collectPageContext selectionRaw bodyRaw).truncated = true ∧
    (collectPageContext selectionRaw bodyRaw).text =
      (chosenText selectionRaw bodyRaw).take maxContextLength ++ truncationNotice ∧
    (collectPageContext selectionRaw bodyRaw).text.length =
      maxContextLength + truncationNotice.length := by
  rw [collectPageContext_of_long _ _ h]
  refine ⟨rfl, rfl, ?_⟩
  rw [List.length_append, List.length_take, Nat.min_eq_left (Nat.le_of_lt h)]

/-- C2 witness: a 6001-character capture is truncated to the
6000-character prefix plus the notice. -/
theorem collectPageContext_truncation_witness :
    maxContextLength < (chosenText (List.replicate 6001 'a') []).length ∧
    (collectPageContext (List.replicate 6001 'a') []).truncated = true ∧
    (collectPageContext (List.replicate 6001 'a') []).text.length =
      maxContextLength + truncationNotice.length := by
  have hlen : maxContextLength < (chosenText (List.replicate 6001 'a') []).length := by
    rw [chosenText_replicate_a 6001 (by decide), List.length_replicate]
    decide
  exact ⟨hlen, (collectPageContext_truncation _ _ hlen).1,
    (collectPageContext_truncation _ _ hlen).2.2⟩

/-! ## Claim C3 -/

/-- C3 counterexample: a 6001-character selection is used
(`usedSelection = true`) but the resulting text is not the trimmed
selection — truncation rewrites it. -/
theorem collectPageContext_selection_counterexample :
    (collectPageContext (List.replicate 6001 'a') []).usedSelection = true ∧
    (collectPageContext (List.replicate 6001 'a') []).text ≠
      jsTrim (List.replicate 6001 'a') := by
  have hne : jsTrim (List.replicate 6001 'a') ≠ [] := by
    rw [jsTrim_replicate_a]
    apply List.ne_nil_of_length_pos
    rw [List.length_replicate]
    decide
  have hlen : maxContextLength < (chosenText (List.replicate 6001 'a') []).length := by
    rw [chosenText_replicate_a 6001 (by decide), List.length_replicate]
    decide
  rw [collectPageContext_of_long _ _ hlen]
  constructor
  · simp only [decide_eq_true_eq]
    exact hne
  · intro heq
    have hlens := congrArg List.length heq
    rw [List.length_append, List.length_take, Nat.min_eq_left (Nat.le_of_lt hlen),
      jsTrim_replicate_a, List.length_replicate] at hlens
    have hnotice : truncationNotice.length = 43 := by decide
    rw [hnotice] at hlens
    exact absurd hlens (by decide)

/-- C3 (amended): a non-empty trimmed selection always wins and sets
`usedSelection`, and its text is the trimmed selection provided that
text fits within `maxContextLength`; with an empty trimmed selection the
normalized body is used and `usedSelection` is false, again up to the
length bound (longer texts are truncated, which is the amendment). -/
theorem collectPageContext_precedence_amended (selectionRaw bodyRaw : Str) :
    (jsTrim selectionRaw ≠ [] →
        (collectPageContext selectionRaw bodyRaw).usedSelection = true ∧
        ((jsTrim selectionRaw).length ≤ maxContextLength →
          (collectPageContext selectionRaw bodyRaw).text = jsTrim selectionRaw)) ∧
    (jsTrim selectionRaw = [] →
        (collectPageContext selectionRaw bodyRaw).usedSelection = false ∧
        ((normalizeBody bodyRaw).length ≤ maxContextLength →
          (collectPageContext selectionRaw bodyRaw).text = normalizeBody bodyRaw)) := by
  constructor
  · intro hne
    have hch : chosenText selectionRaw bodyRaw = jsTrim selectionRaw := by
      unfold chosenText
      rw [if_pos hne]
    constructor
    · by_cases hlong : maxContextLength < (chosenText selectionRaw bodyRaw).length
      · rw [collectPageContext_of_long _ _ hlong]
        exact decide_eq_true hne
      · rw [collectPageContext_of_short _ _ hlong]
        exact decide_eq_true hne
    · intro hshort
      have hnotlong : ¬ maxContextLength < (chosenText selectionRaw bodyRaw).length := by
        rw [hch]
        exact Nat.not_lt.mpr hshort
      rw [collectPageContext_of_short _ _ hnotlong]
      exact hch
  · intro hemp
    have hch : chosenText selectionRaw bodyRaw = normalizeBody bodyRaw := by
      unfold chosenText
      rw [if_neg (by rw [hemp]; exact fun hk => hk rfl)]
    constructor
    · by_cases hlong : maxContextLength < (chosenText selectionRaw bodyRaw).length
      · rw [collectPageContext_of_long _ _ hlong]
        exact decide_eq_false (by rw [hemp]; exact fun hk => hk rfl)
      · rw [collectPageContext_of_short _ _ hlong]
        exact decide_eq_false (by rw [hemp]; exact fun hk => hk rfl)
    · intro hshort
      have hnotlong : ¬ maxContextLength < (chosenText selectionRaw bodyRaw).length := by
        rw [hch]
        exact Nat.not_lt.mpr hshort
      rw [collectPageContext_of_short _ _ hnotlong]
      exact hch

/-- C3 witness: a short highlighted selection is used verbatim after
trimming, regardless of the body text. -/
theorem collectPageContext_precedence_witness :
    (collectPageContext (str "  hi  ") (str "body text here")).usedSelection = true ∧
    (collectPageContext (str "  hi  ") (str "body text here")).text = jsTrim (str "  hi  ") := by
  have h := (collectPageContext_precedence_amended (str "  hi  ") (str "body text here")).1
    (by decide)
  exact ⟨h.1, h.2 (by decide)⟩

/-! ## Claim C4 -/

/-- C4 counterexample: under the prompt-based contract a successful
response whose output text is empty raises the empty-response error
instead of rendering an empty state. -/
theorem empty_output_throws_counterexample :
    callGeminiPromptContract true 200 (.jobj [(str "candidates", .jarr
      [.jobj [(str "content", .jobj
        [(str "parts", .jarr [.jobj [(str "text", .jstr (str ""))]])])]])]) =
      .thrown emptyGeminiResponseMessage := rfl

/-- C4 (amended): under the structured backend contract a successful
response whose parse yields zero flashcards is rendered as the
explanatory empty-state message, never a thrown failure; under the
prompt-based contract, by contrast, an absent output chain or an empty
joined output text raises the empty-response error, and a present
non-array parts value raises a TypeError. -/
theorem zero_cards_empty_state_amended :
    (∀ payload : Option JVal,
        normalizeFlashcards (jFieldOpt payload (str "cards")) = [] →
        showResult payload = .emptyMessage noFlashcardsMessage) ∧
    (∀ (status : Nat) (payload : JVal),
        geminiParts payload = .absent ∨ geminiOutputText payload = some [] →
        callGeminiPromptContract true status payload = .thrown emptyGeminiResponseMessage) ∧
    (∀ (status : Nat) (payload : JVal),
        geminiParts payload = .nonArray →
        callGeminiPromptContract true status payload = .typeError) := by
  refine ⟨?_, ?_, ?_⟩
  · intro payload h
    simp only [showResult]
    rw [if_pos h]
  · intro status payload h
    simp only [callGeminiPromptContract]
    rw [if_neg (by simp)]
    rcases h with h | h
    · rw [h]
    · unfold geminiOutputText at h
      cases hp : geminiParts payload with
      | absent => simp [hp] at h
      | nonArray => simp [hp] at h
      | arr parts =>
          rw [hp] at h
          have htext : jsTrim (parts.foldr (fun p acc => geminiPartText p ++ acc) []) = [] :=
            Option.some.inj h
          show (if jsTrim (parts.foldr (fun p acc => geminiPartText p ++ acc) []) = []
              then PromptCallOutcome.thrown emptyGeminiResponseMessage
              else PromptCallOutcome.ok
                (jsTrim (parts.foldr (fun p acc => geminiPartText p ++ acc) []))) =
            PromptCallOutcome.thrown emptyGeminiResponseMessage
          rw [if_pos htext]
  · intro status payload h
    simp only [callGeminiPromptContract]
    rw [if_neg (by simp)]
    rw [h]

/-- C4 witness: the three branches of the amended claim applied to
concrete responses — an empty structured cards object, an absent output
chain, and a numeric parts value. -/
theorem zero_cards_empty_state_witness :
    showResult (some (.jobj [(str "cards", .jobj [])])) =
      .emptyMessage noFlashcardsMessage ∧
    callGeminiPromptContract true 200 (.jobj []) = .thrown emptyGeminiResponseMessage ∧
    callGeminiPromptContract true 200 (.jobj [(str "candidates", .jarr
      [.jobj [(str "content", .jobj [(str "parts", .jnum 5)])]])]) = .typeError := by
  refine ⟨?_, ?_, ?_⟩
  · exact zero_cards_empty_state_amended.1 (some (.jobj [(str "cards", .jobj [])])) (by decide)
  · exact zero_cards_empty_state_amended.2.1 200 (.jobj []) (Or.inl rfl)
  · exact zero_cards_empty_state_amended.2.2 200 (.jobj [(str "candidates", .jarr
      [.jobj [(str "content", .jobj [(str "parts", .jnum 5)])]])]) rfl

/-! ## Claim C5 -/

theorem lastIndexFrom_some (needle hay : Str) (k I : Nat)
    (h : lastIndexFrom needle hay k = some I) :
    I ≤ k ∧ occursAt needle hay I ∧
      ∀ j, I < j → j ≤ k → ¬ occursAt needle hay j := by
  induction k with
  | zero =>
      unfold lastIndexFrom at h
      split at h
      · cases h
        refine ⟨Nat.le_refl 0, by assumption, ?_⟩
        intro j hj1 hj2
        exact absurd (Nat.lt_of_lt_of_le hj1 hj2) (Nat.lt_irrefl _)
      · cases h
  | succ k ih =>
      unfold lastIndexFrom at h
      split at h
      · cases h
        refine ⟨Nat.le_refl _, by assumption, ?_⟩
        intro j hj1 hj2
        exact absurd (Nat.lt_of_lt_of_le hj1 hj2) (Nat.lt_irrefl _)
      · obtain ⟨h1, h2, h3⟩ := ih h
        refine ⟨Nat.le_succ_of_le h1, h2, ?_⟩
        intro j hj1 hj2
        rcases Nat.lt_or_ge j (k + 1) with hlt | hge
        · exact h3 j hj1 (Nat.lt_succ_iff.mp hlt)
        · have : j = k + 1 := Nat.le_antisymm hj2 hge
          subst this
          assumption

theorem lastIndexFrom_none (needle hay : Str) (k : Nat)
    (h : lastIndexFrom needle hay k = none) :
    ∀ i, i ≤ k → ¬ occursAt needle hay i := by
  induction k with
  | zero =>
      unfold lastIndexFrom at h
      split at h
      · cases h
      · intro i hi
        rw [Nat.le_zero.mp hi]
        assumption
  | succ k ih =>
      unfold lastIndexFrom at h
      split at h
      · cases h
      · intro i hi
        rcases Nat.lt_or_ge i (k + 1) with hlt | hge
        · exact ih h i (Nat.lt_succ_iff.mp hlt)
        · have : i = k + 1 := Nat.le_antisymm hi hge
          subst this
          assumption

theorem occursAt_le_length (needle hay : Str) (i : Nat) (hne : needle ≠ [])
    (h : occursAt needle hay i) : i ≤ hay.length := by
  by_contra hgt
  rw [Nat.not_le] at hgt
  have hdrop : hay.drop i = [] := List.drop_eq_nil_of_le (Nat.le_of_lt hgt)
  unfold occursAt at h
  rw [hdrop, List.take_nil] at h
  exact hne h.symm

/-- C5: `parseInformationHierarchy` splits at the greatest position
where the marker phrase occurs case-insensitively: the trimmed prefix
before it is the outline and the trimmed suffix from it onward is the
job note; with no occurrence the outline is the whole raw string
trimmed and the job note is empty. -/
theorem parseInformationHierarchy_spec (raw : Str) :
    ((∀ i, ¬ occursAt jobMarker (toLowerStr raw) i) →
        parseInformationHierarchy raw = { hierarchy := jsTrim raw, jobNote := [] }) ∧
    (∀ i, occursAt jobMarker (toLowerStr raw) i →
        ∃ last, occursAt jobMarker (toLowerStr raw) last ∧
          (∀ j, occursAt jobMarker (toLowerStr raw) j → j ≤ last) ∧
          parseInformationHierarchy raw =
            { hierarchy := jsTrim (raw.take last)
              jobNote := jsTrim (raw.drop last) }) := by
  constructor
  · intro hno
    unfold parseInformationHierarchy
    by_cases hraw : raw = []
    · rw [if_pos hraw, hraw]
      rfl
    · rw [if_neg hraw]
      cases hli : lastIndexOf jobMarker (toLowerStr raw) with
      | none => rfl
      | some idx =>
          exact absurd (lastIndexFrom_some _ _ _ _ hli).2.1 (hno idx)
  · intro i hi
    have hraw : raw ≠ [] := by
      intro hr
      subst hr
      unfold occursAt at hi
      simp only [toLowerStr, List.map_nil, List.drop_nil, List.take_nil] at hi
      exact absurd hi.symm (by decide)
    unfold parseInformationHierarchy
    rw [if_neg hraw]
    cases hli : lastIndexOf jobMarker (toLowerStr raw) with
    | none =>
        exact absurd hi
          (lastIndexFrom_none _ _ _ hli i
            (by
              have := occursAt_le_length jobMarker (toLowerStr raw) i (by decide) hi
              simpa using this))
    | some idx =>
        obtain ⟨hle, hocc, hmax⟩ := lastIndexFrom_some _ _ _ _ hli
        refine ⟨idx, hocc, ?_, rfl⟩
        intro j hj
        by_contra hgt
        rw [Nat.not_le] at hgt
        exact hmax j hgt (occursAt_le_length jobMarker (toLowerStr raw) j (by decide) hj) hj

/-- C5 witness: the splitter applied to a concrete outline containing
one (capitalized) marker occurrence at position 5. -/
theorem parseInformationHierarchy_spec_witness :
    ∃ last, occursAt jobMarker (toLowerStr (str "Tree\nNote about job function: dev")) last ∧
      (∀ j, occursAt jobMarker (toLowerStr (str "Tree\nNote about job function: dev")) j →
          j ≤ last) ∧
      parseInformationHierarchy (str "Tree\nNote about job function: dev") =
        { hierarchy := jsTrim ((str "Tree\nNote about job function: dev").take last)
          jobNote := jsTrim ((str "Tree\nNote about job function: dev").drop last) } :=
  (parseInformationHierarchy_spec (str "Tree\nNote about job function: dev")).2 5 (by decide)

/-! ## Claim C6 -/

/-- C6: rating extraction yields a value exactly when the
`content_rating` field is numeric (numeric strings yield none), and the
description buckets are: at least 8 high depth, 5 to 7 moderate depth,
1 to 4 light coverage, anything below 1 no rating, each bucket
inclusive of its lower bound. -/
theorem rating_extraction_and_buckets :
    (∀ (payload : Option JVal) (n : Int),
        extractContentRating payload = some n ↔
          jFieldOpt payload (str "content_rating") = some (.jnum n)) ∧
    (∀ r : Int,
        (8 ≤ r → describeRating r = str "High depth content - great for learning.") ∧
        (5 ≤ r → r < 8 → describeRating r = str "Moderate depth - useful but could go deeper.") ∧
        (1 ≤ r → r < 5 → describeRating r = str "Light coverage - mostly surface-level info.") ∧
        (r < 1 → describeRating r = str "No rating available.")) := by
  constructor
  · intro payload n
    unfold extractContentRating
    split
    · rename_i m heq
      rw [heq]
      constructor
      · intro h
        cases h
        rfl
      · intro h
        cases h
        rfl
    · rename_i hnot
      constructor
      · intro h
        cases h
      · intro h
        exact absurd h (hnot n)
  · intro r
    refine ⟨?_, ?_, ?_, ?_⟩
    · intro h
      unfold describeRating
      rw [if_pos h]
    · intro h5 h8
      unfold describeRating
      rw [if_neg (by omega), if_pos h5]
    · intro h1 h5
      unfold describeRating
      rw [if_neg (by omega), if_neg (by omega), if_pos h1]
    · intro h
      unfold describeRating
      rw [if_neg (by omega), if_neg (by omega), if_neg (by omega)]

/-- C6 witness: a numeric-string rating is rejected and each bucket
evaluated at a concrete score. -/
theorem rating_extraction_and_buckets_witness :
    extractContentRating (some (.jobj [(str "content_rating", .jstr (str "7"))])) = none ∧
    describeRating 9 = str "High depth content - great for learning." ∧
    describeRating 6 = str "Moderate depth - useful but could go deeper." ∧
    describeRating 3 = str "Light coverage - mostly surface-level info." ∧
    describeRating 0 = str "No rating available." := by
  refine ⟨by decide, ?_, ?_, ?_, ?_⟩
  · exact (rating_extraction_and_buckets.2 9).1 (by decide)
  · exact (rating_extraction_and_buckets.2 6).2.1 (by decide) (by decide)
  · exact (rating_extraction_and_buckets.2 3).2.2.1 (by decide) (by decide)
  · exact (rating_extraction_and_buckets.2 0).2.2.2 (by decide)

/-! ## Claim C7 -/

/-- The deck invariant maintained by every event handler: the current
index is in bounds and the dot list marks exactly the current index. -/
def deckInv (n : Nat) (s : DeckState) : Prop :=
  s.currentIndex < n ∧
  s.dots = (List.range n).map (fun d => d == s.currentIndex)

theorem updateCard_deckInv (n index : Nat) (h : index < n) :
    deckInv n (updateCard n index) :=
  ⟨h, rfl⟩

theorem deckStep_deckInv (n : Nat) (s : DeckState) (e : DeckEvent)
    (h : deckInv n s) : deckInv n (deckStep n s e) := by
  have hx := h.1
  cases e with
  | next =>
      simp only [deckStep]
      split
      · exact updateCard_deckInv n _ (by omega)
      · exact h
  | prev =>
      simp only [deckStep]
      split
      · exact updateCard_deckInv n _ (by omega)
      · exact h
  | jumpTo j =>
      simp only [deckStep]
      split
      · exact updateCard_deckInv n j (by assumption)
      · exact h
  | flip => exact ⟨h.1, h.2⟩

theorem runDeck_deckInv (n : Nat) (h0 : 0 < n) (events : List DeckEvent) :
    deckInv n (runDeck n events) := by
  have hfold : ∀ (l : List DeckEvent) (s : DeckState),
      deckInv n s → deckInv n (l.foldl (deckStep n) s) := by
    intro l
    induction l with
    | nil => intro s hs; exact hs
    | cons e l ih => intro s hs; exact ih _ (deckStep_deckInv n s e hs)
  exact hfold events _ (updateCard_deckInv n 0 h0)

theorem deckStep_flip_resets (n : Nat) (s : DeckState) (e : DeckEvent)
    (h : (deckStep n s e).currentIndex ≠ s.currentIndex) :
    (deckStep n s e).isFlipped = false := by
  cases e with
  | next =>
      by_cases hc : s.currentIndex < n - 1
      · simp only [deckStep, if_pos hc]
        rfl
      · simp only [deckStep, if_neg hc] at h
        exact absurd rfl h
  | prev =>
      by_cases hc : 0 < s.currentIndex
      · simp only [deckStep, if_pos hc]
        rfl
      · simp only [deckStep, if_neg hc] at h
        exact absurd rfl h
  | jumpTo j =>
      by_cases hc : j < n
      · simp only [deckStep, if_pos hc]
        rfl
      · simp only [deckStep, if_neg hc] at h
        exact absurd rfl h
  | flip => exact absurd rfl h

/-- C7: for a non-empty deck, after any finite sequence of next, prev,
jump-to-dot and flip events the current index stays within bounds, there
is one dot per card and a dot is active exactly at the current index;
moreover any single step that changes the index leaves the card
unflipped, and a flip step never changes the index. -/
theorem deck_state_invariants (n : Nat) (h : 0 < n) (events : List DeckEvent)
    (s : DeckState) (e : DeckEvent) :
    (runDeck n events).currentIndex < n ∧
    (runDeck n events).dots.length = n ∧
    (∀ i, i < n →
        ((runDeck n events).dots[i]? = some true ↔
          i = (runDeck n events).currentIndex)) ∧
    ((deckStep n s e).currentIndex ≠ s.currentIndex →
        (deckStep n s e).isFlipped = false) ∧
    (deckStep n s .flip).currentIndex = s.currentIndex := by
  obtain ⟨h1, h2⟩ := runDeck_deckInv n h events
  refine ⟨h1, ?_, ?_, deckStep_flip_resets n s e, rfl⟩
  · rw [h2, List.length_map, List.length_range]
  · intro i hi
    rw [h2, List.getElem?_map, List.getElem?_range hi]
    simp [beq_iff_eq]

/-- C7 witness: the invariants applied to a two-card deck after a next
and a flip event. -/
theorem deck_state_invariants_witness :
    0 < 2 ∧ (runDeck 2 [DeckEvent.next, DeckEvent.flip]).currentIndex < 2 :=
  ⟨by decide,
    (deck_state_invariants 2 (by decide) [DeckEvent.next, DeckEvent.flip]
      (initialDeck 2) DeckEvent.flip).1⟩

/-! ## Claim C8 -/

/-- C8 counterexample: the unrecognized task identifier "translate" does
not fail — `buildPrompt` falls through to the default summarize
instruction and still produces a generation request. -/
theorem buildPrompt_unknown_task_counterexample :
    (str "translate" ≠ str "summary" ∧ str "translate" ≠ str "flashcards" ∧
      str "translate" ≠ str "quiz") ∧
    taskForAction (str "translate") = defaultSummarizeTask ∧
    buildPrompt (str "translate")
      { text := str "ctx", truncated := false, usedSelection := false } ≠ [] := by
  refine ⟨by decide, by decide, ?_⟩
  decide

/-- C8 (amended): for every task identifier outside the recognized set,
request shaping does not fail: it produces a generation request whose
task instruction is the generic summarize fallback. -/
theorem buildPrompt_unknown_task_amended (action : Str) (ctx : PageContext)
    (h1 : action ≠ str "summary") (h2 : action ≠ str "flashcards")
    (h3 : action ≠ str "quiz") :
    taskForAction action = defaultSummarizeTask ∧
    buildPrompt action ctx =
      str "You are Gemini Flashcards Tutor, an expert AI study assistant powered by Google Gemini Flash 2.0.\nUse the context provided to craft the requested study aid." ++
      selectionNote ctx.usedSelection ++ truncationNote ctx.truncated ++
      str "\n\nContext:\n\"\"\"\n" ++ ctx.text ++ str "\n\"\"\"\n\nTask:\n" ++
      defaultSummarizeTask := by
  have ht : taskForAction action = defaultSummarizeTask := by
    unfold taskForAction
    rw [if_neg h1, if_neg h2, if_neg h3]
  constructor
  · exact ht
  · unfold buildPrompt
    rw [ht]

/-- C8 witness: the amended claim applied to the task identifier
"review". -/
theorem buildPrompt_unknown_task_witness :
    taskForAction (str "review") = defaultSummarizeTask :=
  (buildPrompt_unknown_task_amended (str "review")
    { text := str "c", truncated := false, usedSelection := false }
    (by decide) (by decide) (by decide)).1

/-! ## Claim C9 -/

/-- C9 counterexample: under the prompt-based contract a non-success
response whose body carries a non-empty `detail` field still produces
the generic status message — that contract reads `error.message`, not
`detail`. -/
theorem backend_error_detail_counterexample :
    geminiApiErrorMessage 500 (.jobj [(str "detail", .jstr (str "Server exploded"))]) =
      genericGeminiApiError 500 ∧
    genericGeminiApiError 500 ≠ str "Server exploded" := by
  constructor
  · rfl
  · decide

/-- C9 (amended): on a non-success status the structured local-API
contract surfaces the body `detail` string when non-empty and otherwise
the generic local-API message carrying the status code, while the
prompt-based contract surfaces the body `error.message` string when
non-empty and otherwise the generic Gemini-API message carrying the
status code. -/
theorem backend_error_message_amended (status : Nat) (payload : JVal) :
    (∀ s : Str, jField payload (str "detail") = some (.jstr s) →
        localApiErrorMessage status payload =
          if s = [] then genericLocalApiError status else s) ∧
    (jField payload (str "detail") = none →
        localApiErrorMessage status payload = genericLocalApiError status) ∧
    (∀ s : Str, jFieldOpt (jField payload (str "error")) (str "message") = some (.jstr s) →
        geminiApiErrorMessage status payload =
          if s = [] then genericGeminiApiError status else s) ∧
    (jFieldOpt (jField payload (str "error")) (str "message") = none →
        geminiApiErrorMessage status payload = genericGeminiApiError status) := by
  refine ⟨?_, ?_, ?_, ?_⟩
  · intro s hs
    unfold localApiErrorMessage
    rw [hs]
    by_cases h0 : s = []
    · subst h0
      rw [if_pos rfl]
      rfl
    · rw [if_neg h0]
      simp only [jsTruthy, jsToString]
      rw [if_pos (decide_eq_true h0)]
  · intro hs
    unfold localApiErrorMessage
    rw [hs]
  · intro s hs
    unfold geminiApiErrorMessage
    rw [hs]
    by_cases h0 : s = []
    · subst h0
      rw [if_pos rfl]
      rfl
    · rw [if_neg h0]
      simp only [jsTruthy, jsToString]
      rw [if_pos (decide_eq_true h0)]
  · intro hs
    unfold geminiApiErrorMessage
    rw [hs]

/-- C9 witness: both contracts applied to concrete non-success
responses, with and without their message field. -/
theorem backend_error_message_witness :
    localApiErrorMessage 404 (.jobj [(str "detail", .jstr (str "Missing model"))]) =
      str "Missing model" ∧
    localApiErrorMessage 404 (.jobj []) = genericLocalApiError 404 ∧
    geminiApiErrorMessage 429 (.jobj [(str "error", .jobj
      [(str "message", .jstr (str "Rate limited"))])]) = str "Rate limited" := by
  refine ⟨?_, ?_, ?_⟩
  · have h := (backend_error_message_amended 404
      (.jobj [(str "detail", .jstr (str "Missing model"))])).1 (str "Missing model") rfl
    rw [h]
    rw [if_neg (by decide)]
  · exact (backend_error_message_amended 404 (.jobj [])).2.1 rfl
  · have h := (backend_error_message_amended 429 (.jobj [(str "error", .jobj
      [(str "message", .jstr (str "Rate limited"))])])).2.2.1 (str "Rate limited") rfl
    rw [h]
    rw [if_neg (by decide)]

/-! ## Claim C10 -/

theorem normalizeFlashcards_not_object (v : JVal) (h : isObjectTypeof v = false) :
    normalizeFlashcards (some v) = [] := by
  show (if jsTruthy v = false ∨ isObjectTypeof v = false then ([] : List Card)
    else ((jsEntries v).map entryToCard).filter (fun c => c.front ≠ [])) = []
  rw [if_pos (Or.inr h)]

/-- C10: whenever the cards field is absent, null, or of non-object type
(boolean, string or number), the structured normalizer returns the empty
list and the renderer shows the explanatory no-flashcards message; the
display path is total by construction. -/
theorem showResult_non_object_cards (payload : Option JVal)
    (h : jFieldOpt payload (str "cards") = none ∨
         jFieldOpt payload (str "cards") = some .jnull ∨
         (∃ b, jFieldOpt payload (str "cards") = some (.jbool b)) ∨
         (∃ s, jFieldOpt payload (str "cards") = some (.jstr s)) ∨
         (∃ m, jFieldOpt payload (str "cards") = some (.jnum m))) :
    normalizeFlashcards (jFieldOpt payload (str "cards")) = [] ∧
    showResult payload = RenderResult.emptyMessage noFlashcardsMessage := by
  have hempty : normalizeFlashcards (jFieldOpt payload (str "cards")) = [] := by
    rcases h with h | h | ⟨b, h⟩ | ⟨s, h⟩ | ⟨m, h⟩ <;> rw [h]
    · rfl
    · rfl
    · exact normalizeFlashcards_not_object _ rfl
    · exact normalizeFlashcards_not_object _ rfl
    · exact normalizeFlashcards_not_object _ rfl
  refine ⟨hempty, ?_⟩
  simp only [showResult]
  rw [if_pos hempty]

/-- C10 witness: a payload whose cards field is a plain string renders
the no-flashcards message. -/
theorem showResult_non_object_cards_witness :
    showResult (some (.jobj [(str "cards", .jstr (str "oops"))])) =
      RenderResult.emptyMessage noFlashcardsMessage :=
  (showResult_non_object_cards (some (.jobj [(str "cards", .jstr (str "oops"))]))
    (Or.inr (Or.inr (Or.inr (Or.inl ⟨str "oops", rfl⟩))))).2

end StudyBuddy
